import Mathlib

/-! Shallow embedding of the ezthrottle Python SDK (event store, webhook
signature utilities, step builder and executor, webhook receiver, and the
job-submission client), together with theorems settling the specification's
claims against the embedded code.  Python dicts keyed by strings are
modelled as association lists whose operations keep keys unique; user
callables are modelled by the behaviour the embedded code observes
(whether the call raises, what it returns). -/

namespace EZ

/-! ## EventStore (src/ezthrottle/event_store.py)

`EventStore.handlers` maps an event id to an entry of two optional
callables plus metadata.  A handler callable is modelled by the one bit of
behaviour `emit_event` observes: whether calling it raises. -/

/-- A user-supplied handler callable: calling it either returns normally or
raises (`raises = true`). -/
structure Handler where
  raises : Bool
deriving DecidableEq, Repr

/-- One entry of `EventStore.handlers`: `on_success`, `on_failure`
(either may be `None`) and `metadata`. -/
structure HandlerEntry where
  onSuccess : Option Handler
  onFailure : Option Handler
  metadata  : List (String × String)
deriving DecidableEq, Repr

/-- The `handlers` dict of an `EventStore`; Python dict keys can be any
hashable object (webhook delivery can emit under a `None` job id), so the
key type `κ` is a parameter. -/
abbrev Store (κ : Type) := List (κ × HandlerEntry)

variable {κ : Type} [DecidableEq κ]

/-- `self.handlers.get(event_id)`. -/
def storeGet (s : Store κ) (eventId : κ) : Option HandlerEntry :=
  match s with
  | [] => none
  | (k, v) :: rest => if k = eventId then some v else storeGet rest eventId

/-- `self.handlers.pop(event_id, None)`: the dict after removal of the key
(if present). -/
def storePop (s : Store κ) (eventId : κ) : Store κ :=
  match s with
  | [] => []
  | (k, v) :: rest => if k = eventId then rest else (k, v) :: storePop rest eventId

/-- `EventStore.register_handler`: stores an entry under `event_id`,
overwriting any prior registration. -/
def registerHandler (s : Store κ) (eventId : κ) (entry : HandlerEntry) : Store κ :=
  (eventId, entry) :: storePop s eventId

/-- `EventStore.get_handler`. -/
def getHandler (s : Store κ) (eventId : κ) : Option HandlerEntry :=
  storeGet s eventId

/-- A handler invocation performed by `emit_event`, recording which handler
ran and whether it raised. -/
inductive Inv where
  | success (raised : Bool)
  | failure (raised : Bool)
deriving DecidableEq, Repr

/-- The handler calls the body of `emit_event`'s `try` block performs for a
found entry `h`: `if status == "success" and handler["on_success"]: ...
elif status == "failed" and handler["on_failure"]: ...`.  `status` is
`Option String` because the webhook receiver passes `data.get("status")`,
which is `None` when the payload has no status field; `none` equals
neither `"success"` nor `"failed"`. -/
def emitInvocations (h : HandlerEntry) (status : Option String) : List Inv :=
  if status = some "success" then
    match h.onSuccess with
    | some f => [Inv.success f.raises]
    | none => []
  else if status = some "failed" then
    match h.onFailure with
    | some f => [Inv.failure f.raises]
    | none => []
  else []

/-- `EventStore.emit_event`, run without interleaving: returns the Python
return value, the `handlers` dict afterwards, and the handler invocations
performed.  An exception the handler raises is caught by the
`except Exception` clause (never propagated), and the `finally` block pops
the entry in every case where a handler entry was found. -/
def emitEvent (s : Store κ) (eventId : κ) (status : Option String) :
    Bool × Store κ × List Inv :=
  match storeGet s eventId with
  | none => (false, s, [])
  | some h => (true, storePop s eventId, emitInvocations h status)

/-! ### Interleaved execution of `emit_event`

`emit_event` takes the lock once to read `handlers.get(event_id)`, releases
it, runs the handler, then takes the lock again to pop the entry.  Each
`with self.lock:` block is one atomic action of a thread; the handler call
between them runs outside the lock and is its own action.  Two threads
emitting for the same id are driven by an explicit schedule. -/

/-- The program counter of one thread running `emit_event`. -/
inductive Phase where
  | start
  | looked (h : Option HandlerEntry)
  | invoked
  | done (ret : Bool)
deriving DecidableEq, Repr

/-- One atomic action of a thread at phase `p` emitting `(eventId, status)`
against the shared dict: yields the next phase, the dict, and the global
invocation log. -/
def threadStep (store : Store String) (invs : List Inv) (eventId : String)
    (status : Option String) : Phase → Phase × Store String × List Inv
  | .start => (.looked (storeGet store eventId), store, invs)
  | .looked none => (.done false, store, invs)
  | .looked (some h) => (.invoked, store, invs ++ emitInvocations h status)
  | .invoked => (.done true, storePop store eventId, invs)
  | .done r => (.done r, store, invs)

/-- Shared state of two threads concurrently running
`emit_event eventId status`. -/
structure Conc where
  store : Store String
  t0 : Phase
  t1 : Phase
  invocations : List Inv
deriving DecidableEq, Repr

/-- Run one atomic action of thread `i` (`false` = thread 0). -/
def concStep (eventId : String) (status : Option String) (c : Conc) (i : Bool) : Conc :=
  if i then
    let (p, st, iv) := threadStep c.store c.invocations eventId status c.t1
    { c with t1 := p, store := st, invocations := iv }
  else
    let (p, st, iv) := threadStep c.store c.invocations eventId status c.t0
    { c with t0 := p, store := st, invocations := iv }

/-- Run the two threads under the schedule `sched` (the list of thread
indices, in execution order). -/
def concRun (c : Conc) (eventId : String) (status : Option String)
    (sched : List Bool) : Conc :=
  sched.foldl (concStep eventId status) c

/-- A store holding one registered entry for id `"j"` whose `on_success`
handler returns normally. -/
def raceStore : Store String := [("j", ⟨some ⟨false⟩, none, []⟩)]

/-- Both threads start `emit_event "j" "success"` against `raceStore`. -/
def raceInit : Conc := ⟨raceStore, .start, .start, []⟩

/-- The interleaving in which both threads pass their `handlers.get` before
either reaches its `handlers.pop`: t0 looks up, t1 looks up, t0 invokes,
t1 invokes, t0 pops, t1 pops. -/
def raceFinal : Conc :=
  concRun raceInit "j" (some "success") [false, true, false, true, false, true]

/-! ## Webhook signature utilities (src/ezthrottle/webhook_utils.py)

Python `str` values handled by the header parser are modelled as `List
Char`, so the parsing steps (`split(',')`, `split('=', 1)`) are plain
recursive functions.  `hmac.new(..., hashlib.sha256).hexdigest()` is an
external primitive; the embedded functions take it as an explicit function
argument `hmacHex : secret → message → hex digest`. -/

/-- A Python string, as the character list it is made of. -/
abbrev PyStr := List Char

/-- Python `s.split(',')`: every maximal comma-free run, in order (an empty
string yields `[""]`). -/
def splitComma : PyStr → List PyStr
  | [] => [[]]
  | c :: rest =>
    if c = ',' then [] :: splitComma rest
    else
      match splitComma rest with
      | [] => [[c]]
      | p :: ps => (c :: p) :: ps

/-- Python `part.split('=', 1)` guarded by `'=' in part`: the text before
the first `=` and everything after it, or `none` when the part has no `=`. -/
def splitFirstEq : PyStr → Option (PyStr × PyStr)
  | [] => none
  | c :: rest =>
    if c = '=' then some ([], rest)
    else
      match splitFirstEq rest with
      | none => none
      | some (k, v) => some (c :: k, v)

/-- The `parts` dict built by `verify_webhook_signature`'s parsing loop:
each comma-separated part holding an `=` contributes `key → value`
(later assignments to the same key overwrite earlier ones). -/
def partsOf (header : PyStr) : List (PyStr × PyStr) :=
  (splitComma header).filterMap splitFirstEq

/-- `parts.get(key, dflt)` where assignments were made in list order, so
the last pair carrying `key` wins. -/
def partsGet (ps : List (PyStr × PyStr)) (key dflt : PyStr) : PyStr :=
  match ps.reverse.find? (fun p => p.1 == key) with
  | some p => p.2
  | none => dflt

/-- The numeric value of a non-empty all-digit character run. -/
def digitsVal (cs : List Char) : Option Nat :=
  if cs = [] then none
  else if cs.all Char.isDigit then
    some (cs.foldl (fun acc c => 10 * acc + (c.toNat - 48)) 0)
  else none

/-- Python `int(s)` on the decimal literals of interest: an optional sign
followed by digits; anything else raises `ValueError`, modelled as `none`. -/
def parseInt : PyStr → Option Int
  | '-' :: rest => (digitsVal rest).map fun n => -(n : Int)
  | '+' :: rest => (digitsVal rest).map fun n => (n : Int)
  | cs => (digitsVal cs).map fun n => (n : Int)

/-- `verify_webhook_signature(payload, signature_header, secret, tolerance)`
at wall-clock time `now` (`int(time.time())`).  Returns the
`(verified, reason)` pair; every negative path is a returned reason, and
the `except Exception` clause turns an `int()` failure into a
`verification_error` reason rather than an exception. -/
def verifyWebhookSignature (hmacHex : PyStr → PyStr → PyStr) (now : Int)
    (payload sigHeader secret : PyStr) (tolerance : Int) : Bool × String :=
  if sigHeader = [] then (false, "no_signature_header")
  else
    let parts := partsOf sigHeader
    let timestampStr := partsGet parts ['t'] ['0']
    let signature := partsGet parts ['v', '1'] []
    if signature = [] then (false, "missing_v1_signature")
    else
      match parseInt timestampStr with
      | none => (false, "verification_error: invalid int literal")
      | some sigTime =>
        let timeDiff := |now - sigTime|
        if timeDiff > tolerance then
          (false, "timestamp_expired (diff=" ++ toString timeDiff ++
            "s, tolerance=" ++ toString tolerance ++ "s)")
        else
          let expected := hmacHex secret (timestampStr ++ '.' :: payload)
          if signature = expected then (true, "valid") else (false, "signature_mismatch")

/-- A well-formed signature header `t=<ts>,v1=<sig>`, as the webhook
sender produces it. -/
def sigHeaderOf (ts sig : PyStr) : PyStr :=
  't' :: '=' :: (ts ++ ',' :: 'v' :: '1' :: '=' :: sig)

/-- `try_verify_with_secrets`: primary secret first, then the secondary
when one is supplied (Python truthiness: `None` and the empty string both
skip the secondary attempt), reporting which secret matched. -/
def tryVerifyWithSecrets (hmacHex : PyStr → PyStr → PyStr) (now : Int)
    (payload sigHeader primarySecret : PyStr) (secondarySecret : Option PyStr)
    (tolerance : Int) : Bool × String :=
  let r1 := verifyWebhookSignature hmacHex now payload sigHeader primarySecret tolerance
  if r1.1 then (true, "valid_primary")
  else
    match secondarySecret with
    | some s =>
      if s ≠ [] then
        let r2 := verifyWebhookSignature hmacHex now payload sigHeader s tolerance
        if r2.1 then (true, "valid_secondary")
        else (false, "both_secrets_failed (primary: " ++ r2.2 ++ ")")
      else (false, "both_secrets_failed (primary: " ++ r1.2 ++ ")")
    | none => (false, "both_secrets_failed (primary: " ++ r1.2 ++ ")")

/-! ## Step builder and executor (src/ezthrottle/step.py)

`Step` is the recursive job definition: its fallback chain holds further
steps paired with trigger conditions, and `on_success`/`on_failure` hold
continuation steps.  Python truthiness governs which payload keys
`_build_job_payload` emits, so every "only include if set/non-default"
field stays `Option`/list-valued here and a `truthy` test mirrors `if
self._x:`. -/

/-- `StepType`. -/
inductive StepType where
  | frugal
  | performance
deriving DecidableEq, Repr

/-- `IdempotentStrategy`. -/
inductive IdempotentStrategy where
  | hash
  | unique
deriving DecidableEq, Repr

/-- The trigger dict `Step.fallback` builds: `{}` when neither argument is
truthy, else `on_error` with its codes or `on_timeout` with its
milliseconds. -/
inductive Trigger where
  | empty
  | onError (codes : List Int)
  | onTimeout (timeoutMs : Int)
deriving DecidableEq, Repr

/-- One element of a `webhooks` array
(`{"url": ..., "regions": ..., "has_quorum_vote": ...}`). -/
structure WebhookCfg where
  url : String
  regions : Option (List String) := none
  hasQuorumVote : Bool := true
deriving DecidableEq, Repr

/-- The `idempotent_key` value a payload carries: the caller's custom key,
or the marker for a freshly drawn `str(uuid.uuid4())` (the UUID source is
external nondeterminism, so only its freshness is represented). -/
inductive KeyVal where
  | custom (key : String)
  | freshUUID
deriving DecidableEq, Repr

/-- Python `if x:` on an optional string: `None` and `""` are falsy. -/
def strTruthy : Option String → Bool
  | none => false
  | some s => s != ""

/-- Python `if x:` on an optional list/dict: `None` and the empty
collection are falsy. -/
def optListTruthy {α : Type} : Option (List α) → Bool
  | none => false
  | some l => !l.isEmpty

/-- The fields of `Step.__init__`, with its defaults; the type parameter
`S` ties the recursive knot (`S = Step` below).  `self.client` is not
modelled: `execute` below always receives the client explicitly, as every
claim does. -/
structure StepF (S : Type) where
  stepType : StepType := .performance
  url : Option String := none
  method : String := "GET"
  headers : List (String × String) := []
  body : Option String := none
  metadata : List (String × String) := []
  webhooks : List WebhookCfg := []
  webhookQuorum : Int := 1
  regions : Option (List String) := none
  regionPolicy : String := "fallback"
  executionMode : String := "race"
  retryPolicy : List (String × Int) := []
  retryAt : Option Int := none
  idempotentKey : Option String := none
  idempotentStrategy : IdempotentStrategy := .hash
  fallbackOnError : List Int := [429, 500, 502, 503, 504]
  localTimeout : Int := 30
  fallbackSteps : List (S × Trigger) := []
  onSuccessStep : Option S := none
  onFailureStep : Option S := none
  onFailureTimeoutMs : Option Int := none

/-- A configured `Step`. -/
inductive Step where
  | mk (f : StepF Step)

/-- The fields of a `Step`. -/
def Step.f : Step → StepF Step
  | .mk f => f

/-- The job payload dict `_build_job_payload` produces; `none` (or the
empty list) is an absent key.  `P = Payload` ties the recursive knot for
`fallback_job`, `on_success` and `on_failure`. -/
structure PayloadF (P : Type) where
  url : String
  method : String
  headers : List (String × String) := []
  body : Option String := none
  metadata : List (String × String) := []
  webhooks : List WebhookCfg := []
  webhookQuorum : Option Int := none
  regions : Option (List String) := none
  regionPolicy : Option String := none
  executionMode : Option String := none
  retryPolicy : List (String × Int) := []
  retryAt : Option Int := none
  idempotentKey : Option KeyVal := none
  fallbackJob : Option P := none
  onSuccess : Option P := none
  onFailure : Option P := none
  onFailureTimeoutMs : Option Int := none
  trigger : Option Trigger := none

/-- A built job payload. -/
inductive Payload where
  | mk (f : PayloadF Payload)

/-- The fields of a `Payload`. -/
def Payload.f : Payload → PayloadF Payload
  | .mk f => f

/-- `current_fallback["trigger"] = trigger`. -/
def Payload.withTrigger : Payload → Trigger → Payload
  | .mk f, t => .mk { f with trigger := some t }

/-- `current_fallback["fallback_job"] = fallback_job`. -/
def Payload.withFallbackJob : Payload → Payload → Payload
  | .mk f, fb => .mk { f with fallbackJob := some fb }

/-- The `idempotent_key` key of `_build_job_payload`: the custom key when
truthy, else a fresh UUID under the `UNIQUE` strategy, else absent (the
backend computes the deterministic hash). -/
def idempotentKeyField (key : Option String) (strategy : IdempotentStrategy) :
    Option KeyVal :=
  if strTruthy key then (key.map .custom)
  else if strategy = .unique then some .freshUUID
  else none

mutual

/-- `Step._build_job_payload`; `.error ()` is the `ValueError` raised when
the target URL is missing (Python truthiness: `None` or `""`). -/
def buildJobPayload : Step → Except Unit Payload
  | .mk ⟨_ty, url, meth, hdrs, body, meta, whs, quorum, regs, rpol, emode,
         retpol, rat, ikey, istrat, _fbErr, _lto, fbs, osucc, ofail, oftm⟩ => do
    match url with
    | none => .error ()
    | some u =>
      if u = "" then .error ()
      else do
        let fb ← buildFallbackChain fbs
        let osuccP ← buildOptPayload osucc
        let ofailP ← buildOptPayload ofail
        .ok (.mk {
          url := u
          method := meth
          headers := hdrs
          body := if strTruthy body then body else none
          metadata := meta
          webhooks := whs
          webhookQuorum := if quorum ≠ 1 then some quorum else none
          regions := if optListTruthy regs then regs else none
          regionPolicy := if rpol ≠ "fallback" then some rpol else none
          executionMode := if emode ≠ "race" then some emode else none
          retryPolicy := retpol
          retryAt := rat
          idempotentKey := idempotentKeyField ikey istrat
          fallbackJob := fb
          onSuccess := osuccP
          onFailure := ofailP
          onFailureTimeoutMs := oftm })

/-- `if self._on_success_step: payload["on_success"] = ..._build_job_payload()`
(and the same for `on_failure`). -/
def buildOptPayload : Option Step → Except Unit (Option Payload)
  | none => .ok none
  | some s => do
    let p ← buildJobPayload s
    .ok (some p)

/-- `Step._build_fallback_chain`: the reversed loop builds the chain from
the last fallback inwards; each level is that fallback's own payload with
its trigger attached, and — for every level but the innermost — its
`fallback_job` key overwritten with the rest of the chain. -/
def buildFallbackChain : List (Step × Trigger) → Except Unit (Option Payload)
  | [] => .ok none
  | (s, t) :: rest => do
    let tail ← buildFallbackChain rest
    let cur ← buildJobPayload s
    let cur := cur.withTrigger t
    let cur := match tail with
      | some c => cur.withFallbackJob c
      | none => cur
    .ok (some cur)

end

/-! ### Executing a step

`Step.execute(client)` is embedded as `executeStep`.  The HTTP request the
FRUGAL path performs locally is the external world, supplied as
`localHttp : url → outcome`; the remote collaborator's answer to a
submission is supplied by the client's `submit` function, and every
payload handed to `client.submit_job` is accumulated so the theorems can
speak about what was delegated.  (`register_workflow`'s effect on the
event store is the EventStore model above and is not re-tracked here.) -/

/-- What `Step._execute_local` — `requests.<method>(url, ...)` plus any
call-site code — can do: return a response, raise a transport error
(`requests.Timeout` / `requests.RequestException`), or raise the
`ForwardToEZThrottle` signal carrying a custom key and metadata. -/
inductive LocalOutcome where
  | resp (statusCode : Int) (text : String)
  | netError
  | forward (idempotentKey : Option String) (metadata : List (String × String))
deriving DecidableEq, Repr

/-- The Python exceptions the executor raises or dispatches on. -/
inductive PyExn where
  | valueError
  | forwardSignal (idempotentKey : Option String) (metadata : List (String × String))
  | netError
deriving DecidableEq, Repr

/-- A result dict as `execute` returns it (and as `client.submit_job`
answers): only the keys the executor reads or writes. -/
structure RDict where
  status : Option String := none
  executedLocally : Option Bool := none
  statusCode : Option Int := none
  response : Option String := none
  error : Option String := none
  jobId : Option String := none
deriving DecidableEq, Repr

/-- The client as the executor sees it: whether a webhook server is
attached, its `get_url()`, and the collaborator's answer to a submitted
payload. -/
structure Client where
  hasWebhookServer : Bool
  webhookUrl : String
  submit : Payload → RDict

/-- Python `dict.update`: keys of `new` overwrite those of `old`, fresh
keys are appended. -/
def dictUpdate (old new : List (String × String)) : List (String × String) :=
  (old.map fun p =>
    match new.reverse.find? (fun q => q.1 == p.1) with
    | some q => (p.1, q.2)
    | none => p) ++
  new.filter fun q => !(old.any fun p => p.1 == q.1)

/-- The mutation the `except ForwardToEZThrottle` handler performs on the
step before re-forwarding: adopt the signal's key when truthy and merge
its metadata when non-empty. -/
def Step.applyForward : Step → Option String → List (String × String) → Step
  | .mk f, key, meta =>
    .mk { f with
      idempotentKey := if strTruthy key then key else f.idempotentKey
      metadata := if !meta.isEmpty then dictUpdate f.metadata meta else f.metadata }

/-- `payload["webhooks"].append({"url": webhook_url, "has_quorum_vote": True})`
(after `payload["webhooks"] = []` when the key was absent or falsy). -/
def Payload.withWebhookAppended : Payload → String → Payload
  | .mk f, u =>
    .mk { f with webhooks := f.webhooks ++ [{ url := u, regions := none, hasQuorumVote := true }] }

/-- The success dict the FRUGAL path returns for a 2xx local response. -/
def successDict (code : Int) (text : String) : RDict :=
  { status := some "success", executedLocally := some true,
    statusCode := some code, response := some text }

/-- The terminal failure dict the FRUGAL path returns for a non-trigger
error status. -/
def failedDict (code : Int) : RDict :=
  { status := some "failed", executedLocally := some true,
    statusCode := some code, error := some ("Request failed: " ++ toString code) }

/-- `Step._forward_to_ezthrottle` (also the body of
`Step._execute_performance`, which repeats it verbatim): build the
payload, append the client's webhook when a webhook server is attached and
the step carries continuations, and submit.  The `ValueError` of
`_build_job_payload` propagates. -/
def forwardToEZThrottle (client : Client) (s : Step) :
    Except PyExn RDict × List Payload :=
  match buildJobPayload s with
  | .error _ => (.error .valueError, [])
  | .ok payload =>
    let hasFlow := s.f.onSuccessStep.isSome || s.f.onFailureStep.isSome
    let payload :=
      if client.hasWebhookServer && hasFlow then payload.withWebhookAppended client.webhookUrl
      else payload
    (.ok (client.submit payload), [payload])

mutual

/-- `Step.execute(client)`: the FRUGAL strategy runs the primary locally
(the `try` block, `frugalTry`) and dispatches its outcome through the
`except` clauses (`frugalExcept`); the PERFORMANCE strategy submits
immediately.  Returns the Python result (or the exception that
propagates) together with every payload submitted to the collaborator, in
submission order. -/
def executeStep (localHttp : String → LocalOutcome) (client : Client) :
    Step → Except PyExn RDict × List Payload
  | s@(.mk ⟨ty, url, _meth, _hdrs, _body, _meta, _whs, _quorum, _regs, _rpol, _emode,
         _retpol, _rat, _ikey, _istrat, fbErr, _lto, fbs, osucc, _ofail, _oftm⟩) =>
    match ty with
    | .performance => forwardToEZThrottle client s
    | .frugal =>
      frugalExcept localHttp client s fbs (frugalTry localHttp client s url fbErr fbs osucc)
termination_by s => (sizeOf s, 4)

/-- The `try` block of `Step._execute_frugal`: run the primary locally; on
2xx run the `on_success` continuation and return the success dict; on a
trigger-set status walk the chain and escalate; on another error status
return the terminal failure dict; transport errors and the
`ForwardToEZThrottle` signal surface as exceptions for the `except`
clauses (a missing URL raises `ValueError`, which no clause catches). -/
def frugalTry (localHttp : String → LocalOutcome) (client : Client) (s : Step)
    (url : Option String) (fbErr : List Int) (fbs : List (Step × Trigger))
    (osucc : Option Step) : Except PyExn RDict × List Payload :=
  if !(strTruthy url) then (.error .valueError, [])
  else
    match localHttp (url.getD "") with
    | .forward k m => (.error (.forwardSignal k m), [])
    | .netError => (.error .netError, [])
    | .resp code text =>
      if 200 ≤ code ∧ code < 300 then
        frugalOnSuccess localHttp client code text osucc
      else if code ∈ fbErr then
        frugalEscalate localHttp client s fbs code
      else (.ok (failedDict code), [])
termination_by (sizeOf osucc + sizeOf fbs + 1, 3)

/-- The 2xx branch: `if self._on_success_step: self._on_success_step.execute(client)`,
then return the success dict; an exception raised by the continuation
propagates into the `except` clauses. -/
def frugalOnSuccess (localHttp : String → LocalOutcome) (client : Client)
    (code : Int) (text : String) : Option Step → Except PyExn RDict × List Payload
  | none => (.ok (successDict code text), [])
  | some s2 =>
    let r2 := executeStep localHttp client s2
    match r2.1 with
    | .ok _ => (.ok (successDict code text), r2.2)
    | .error e => (.error e, r2.2)
termination_by o => (sizeOf o, 5)

/-- The trigger-set branch: walk the local fallback chain; when it is
exhausted, forward the full definition to the collaborator. -/
def frugalEscalate (localHttp : String → LocalOutcome) (client : Client) (s : Step)
    (fbs : List (Step × Trigger)) (code : Int) : Except PyExn RDict × List Payload :=
  let fbr := tryLocalFallbacks localHttp client fbs (some code)
  match fbr.1 with
  | some r => (.ok r, fbr.2)
  | none =>
    let fr := forwardToEZThrottle client s
    (fr.1, fbr.2 ++ fr.2)
termination_by (sizeOf fbs, 1)

/-- The `except` clauses of `Step._execute_frugal`: a `ForwardToEZThrottle`
signal adopts the signal's key/metadata and forwards; a transport error
walks the chain and then forwards; any other exception propagates. -/
def frugalExcept (localHttp : String → LocalOutcome) (client : Client) (s : Step)
    (fbs : List (Step × Trigger)) (tryRes : Except PyExn RDict × List Payload) :
    Except PyExn RDict × List Payload :=
  match tryRes.1 with
  | .ok r => (.ok r, tryRes.2)
  | .error (.forwardSignal k m) =>
    let fr := forwardToEZThrottle client (s.applyForward k m)
    (fr.1, tryRes.2 ++ fr.2)
  | .error .netError =>
    let fbr := tryLocalFallbacks localHttp client fbs none
    match fbr.1 with
    | some r => (.ok r, tryRes.2 ++ fbr.2)
    | none =>
      let fr := forwardToEZThrottle client s
      (fr.1, tryRes.2 ++ fbr.2 ++ fr.2)
  | .error e => (.error e, tryRes.2)
termination_by (sizeOf fbs, 1)

/-- `Step._try_local_fallbacks`: walk the chain in order; a fallback is
attempted when its trigger fires (`on_error` needs a truthy matching code,
`on_timeout` and an empty trigger always fire) and it is FRUGAL-typed
(PERFORMANCE fallbacks are skipped); the walk stops at the first fallback
whose result dict says `"success"`; any exception a fallback attempt
raises is swallowed and the walk continues. -/
def tryLocalFallbacks (localHttp : String → LocalOutcome) (client : Client) :
    List (Step × Trigger) → Option Int → Option RDict × List Payload
  | [], _ => (none, [])
  | (fb, trig) :: rest, errorCode =>
    let shouldTrigger : Bool :=
      match trig with
      | .onError codes =>
        match errorCode with
        | some c => decide (c ≠ 0) && decide (c ∈ codes)
        | none => false
      | .onTimeout _ => true
      | .empty => true
    if shouldTrigger then
      if fb.f.stepType = .frugal then
        let r := executeStep localHttp client fb
        match r.1 with
        | .ok rd =>
          if rd.status = some "success" then (some rd, r.2)
          else
            let r2 := tryLocalFallbacks localHttp client rest errorCode
            (r2.1, r.2 ++ r2.2)
        | .error _ =>
          let r2 := tryLocalFallbacks localHttp client rest errorCode
          (r2.1, r.2 ++ r2.2)
      else tryLocalFallbacks localHttp client rest errorCode
    else tryLocalFallbacks localHttp client rest errorCode
termination_by l _ => (sizeOf l, 0)

end

/-! ## Job submission (src/ezthrottle/client.py, `EZThrottle.submit_job`)

The HTTP exchange with the TracktTags proxy is the external world: the
proxy's answer arrives as an `HttpResponse` whose JSON parse outcomes are
part of the value (`none` models `response.json()` raising).  `json.loads`
on the forwarded body is the Python stdlib parser, supplied as the
function argument `parseJson` (`none` = `JSONDecodeError`). -/

/-- `proxy_response.get("forwarded_response", ...)`: the keys `submit_job`
reads from it, each `none` when absent. -/
structure ForwardedResp where
  statusCode : Option Int := none
  body : Option String := none
deriving DecidableEq, Repr

/-- The proxy's JSON body: the keys `submit_job` reads, each `none` when
absent (the same shape serves the 429 `error_data`). -/
structure ProxyJson where
  status : Option String := none
  error : Option String := none
  retryAt : Option Int := none
  forwardedResponse : Option ForwardedResp := none
deriving DecidableEq, Repr

/-- The proxy's HTTP response: status code, the `Retry-After` header if
any, the parsed JSON body (`none` = the body is not valid JSON, so
`response.json()` raises), and the raw text used in error messages. -/
structure HttpResponse where
  statusCode : Int
  jsonBody : Option ProxyJson := none
  retryAfterHeader : Option String := none
  text : String := ""
deriving DecidableEq, Repr

/-- What a `submit_job` call can raise: the typed `EZThrottleError` of the
SDK's taxonomy, or an untyped Python built-in. -/
inductive ClientErr where
  | ezthrottleError (message : String) (retryAt : Option Int)
  | jsonDecodeError
  | typeError
  | valueError
deriving DecidableEq, Repr

/-- The parsed EZThrottle response dict `submit_job` returns. -/
abbrev ResultPayload := List (String × String)

/-- `EZThrottle.submit_job` from the point the proxy's response is in
hand (building the outbound payload has no failure path of its own).
`nowMs` is `int(time.time() * 1000)`. -/
def submitJob (parseJson : String → Option ResultPayload) (nowMs : Int)
    (response : HttpResponse) : Except ClientErr ResultPayload :=
  if response.statusCode = 429 then
    match response.jsonBody with
    | none => .error .jsonDecodeError
    | some errorData =>
      let message := "Rate limited: " ++ (errorData.error.getD "Unknown error")
      match response.retryAfterHeader with
      | some hdr =>
        if hdr ≠ "" then
          match parseInt hdr.toList with
          | none => .error .valueError
          | some secs => .error (.ezthrottleError message (some (nowMs + secs * 1000)))
        else .error (.ezthrottleError message errorData.retryAt)
      | none => .error (.ezthrottleError message errorData.retryAt)
  else if response.statusCode ≠ 200 then
    .error (.ezthrottleError ("Proxy request failed: " ++ response.text) none)
  else
    match response.jsonBody with
    | none => .error .jsonDecodeError
    | some proxyResponse =>
      if proxyResponse.status ≠ some "allowed" then
        .error (.ezthrottleError
          ("Request denied: " ++ (proxyResponse.error.getD "Unknown error")) none)
      else
        let forwarded := proxyResponse.forwardedResponse.getD {}
        match forwarded.statusCode with
        | none => .error .typeError
        | some sc =>
          if sc < 200 ∨ sc ≥ 300 then
            .error (.ezthrottleError
              ("EZThrottle job creation failed: " ++ (forwarded.body.getD "Unknown error")) none)
          else
            match parseJson (forwarded.body.getD "\x7b\x7d") with
            | none => .error .jsonDecodeError
            | some payload => .ok payload

/-! ## Webhook receiver (src/ezthrottle/webhook.py)

The `/webhook` endpoint of both backends.  The handler bodies are
identical, but what reaches them differs per backend, so the backend is
part of the model:

* a body that is not parseable JSON at all: FastAPI's
  `data: Dict[str, Any]` validation answers 422 before the handler runs;
  Flask's `request.json` raises inside the framework before the first
  handler statement (werkzeug's BadRequest, 400 — with a non-JSON content
  type, 415; the model uses 400);
* a body that parses as JSON but is not an object (a list, string,
  number or `null`): FastAPI's validation still answers 422 before the
  handler, but Flask's `request.json` happily returns the value, the
  handler body *runs*, and its first read `data.get("job_id")` raises
  `AttributeError`, which Flask turns into an HTTP 500 — an unhandled
  server error, not a rejection.  Nothing is stored on that path;
* a JSON object: the handler runs in full on either backend and never
  validates the object's fields. -/

/-- Which web stack `create_webhook_server` picked. -/
inductive Backend where
  | flask
  | fastapi
deriving DecidableEq, Repr

/-- The JSON-object body of an inbound webhook: the fields the receiver
reads (`data.get("job_id")`, `data.get("status")`), each `none` when
absent, plus the rest of the payload it stores verbatim. -/
structure WebhookData where
  jobId : Option String := none
  status : Option String := none
  response : Option String := none
  idempotentKey : Option String := none
deriving DecidableEq, Repr

/-- An inbound POST to `/webhook`, by how its body parses. -/
inductive WebhookRequest where
  | notJson
  | jsonNonObject
  | jsonObject (data : WebhookData)
deriving DecidableEq, Repr

/-- The receiver's mutable state: the result table, the waiter events
(`result_events`), which waiters were signalled, the event store, whether
a user callback is configured and which callback runs were spawned.  Keys
are `Option String` because a payload without `job_id` is processed with
`job_id = None`. -/
structure ServerState where
  results : List (Option String × WebhookData) := []
  waiters : List (Option String) := []
  signaled : List (Option String) := []
  eventStore : Store (Option String) := []
  emitLog : List Inv := []
  hasCallback : Bool := false
  callbacksSpawned : List (Option String × WebhookData) := []
deriving Repr

/-- `self.results[job_id] = data` (last write wins). -/
def setResult (rs : List (Option String × WebhookData)) (jid : Option String)
    (data : WebhookData) : List (Option String × WebhookData) :=
  (jid, data) :: rs.filter fun p => p.1 ≠ jid

/-- `receive_webhook` on the given backend, from the framework boundary
in: for a JSON object, store the payload, signal any waiter, emit into
the event store, spawn the user callback, acknowledge with 200.  A body
that is not parseable JSON never reaches the handler (Flask 400,
FastAPI 422, state untouched); a parseable non-object body is likewise
422-rejected by FastAPI, but on Flask the handler body runs and
`data.get("job_id")` raises `AttributeError` — Flask answers 500 and
nothing is stored.  Returns (HTTP status, ack body, new state). -/
def receiveWebhook (backend : Backend) (st : ServerState) (req : WebhookRequest) :
    Int × Option String × ServerState :=
  match req with
  | .notJson =>
    match backend with
    | .flask => (400, none, st)
    | .fastapi => (422, none, st)
  | .jsonNonObject =>
    match backend with
    | .flask => (500, none, st)
    | .fastapi => (422, none, st)
  | .jsonObject data =>
    let jid := data.jobId
    let st1 := { st with results := setResult st.results jid data }
    let st2 :=
      if jid ∈ st1.waiters then { st1 with signaled := jid :: st1.signaled } else st1
    let emitted := emitEvent st2.eventStore jid data.status
    let st3 := { st2 with eventStore := emitted.2.1, emitLog := st2.emitLog ++ emitted.2.2 }
    let st4 :=
      if st3.hasCallback then
        { st3 with callbacksSpawned := st3.callbacksSpawned ++ [(jid, data)] }
      else st3
    (200, some "received", st4)

/-- `self.results.get(job_id)` on the receiver's result table. -/
def getResult (rs : List (Option String × WebhookData)) (jid : Option String) :
    Option WebhookData :=
  match rs.find? (fun p => p.1 == jid) with
  | some p => some p.2
  | none => none

/-! ### Observations on built payloads -/

/-- The number of `fallback_job` nesting levels below a payload. -/
def chainDepth : Payload → Nat
  | .mk ⟨_u, _m, _hd, _b, _me, _w, _q, _r, _rp, _em, _rpo, _ra, _ik, fb, _os, _of, _oft, _t⟩ =>
    match fb with
    | none => 0
    | some p => 1 + chainDepth p
termination_by structural p => p

/-- The successive `fallback_job` payloads below a payload, outermost
first. -/
def chainLevels : Payload → List Payload
  | .mk ⟨_u, _m, _hd, _b, _me, _w, _q, _r, _rp, _em, _rpo, _ra, _ik, fb, _os, _of, _oft, _t⟩ =>
    match fb with
    | none => []
    | some p => p :: chainLevels p
termination_by structural p => p

/-! ### Concrete instances the claims are evaluated at -/

/-- C3 scenario: the primary target answers 500, the FRUGAL fallback's
target answers 200, everything else is unreachable. -/
def lhC3 : String → LocalOutcome := fun u =>
  if u = "https://primary" then .resp 500 "oops"
  else if u = "https://fb" then .resp 200 "ok"
  else .netError

/-- A client with no webhook server whose collaborator would answer an
empty dict (it is never reached in the C3 scenario). -/
def clientC3 : Client := ⟨false, "", fun _ => {}⟩

/-- A PERFORMANCE-typed fallback ahead of the FRUGAL one (it must be
skipped). -/
def preC3 : List (Step × Trigger) :=
  [(.mk { stepType := .performance, url := some "https://perf" }, .empty)]

/-- The FRUGAL fallback that succeeds locally. -/
def fbC3 : Step := .mk { stepType := .frugal, url := some "https://fb" }

/-- A chain tail after the succeeding fallback; its step has no URL, so
attempting it would raise — it must never be reached. -/
def restC3 : List (Step × Trigger) := [(.mk {}, .empty)]

/-- The C3 primary step: FRUGAL, trigger set containing 500, chain
`preC3 ++ (fbC3 on 500) :: restC3`. -/
def fC3 : StepF Step :=
  { stepType := .frugal, url := some "https://primary",
    fallbackSteps := preC3 ++ (fbC3, .onError [500]) :: restC3 }

/-- C4 counterexample: one top-level fallback (`k = 1`) that itself
carries a nested fallback. -/
def c4CexStep : Step :=
  .mk { url := some "p",
        fallbackSteps := [(.mk { url := some "f1",
                                 fallbackSteps := [(.mk { url := some "f2" }, .empty)] },
                           .empty)] }

/-- The payload `c4CexStep` builds: the last (only) chain level keeps its
own nested chain, so the nesting depth is 2, not 1. -/
def c4CexPayload : Payload :=
  .mk { url := "p", method := "GET",
        fallbackJob := some (.mk { url := "f1", method := "GET", trigger := some .empty,
                                   fallbackJob := some (.mk { url := "f2", method := "GET",
                                                              trigger := some .empty }) }) }

/-- C4 witness: a three-level fallback chain of leaf steps with three
distinct trigger conditions. -/
def c4WitStep : Step :=
  .mk { url := some "p",
        fallbackSteps := [(.mk { url := some "f1" }, .onError [429, 500]),
                          (.mk { url := some "f2" }, .onTimeout 5000),
                          (.mk { url := some "f3" }, .empty)] }

/-- The payload `c4WitStep` builds: a three-deep nesting whose levels
carry the three triggers in chain order, first fallback outermost. -/
def c4WitPayload : Payload :=
  .mk { url := "p", method := "GET",
        fallbackJob := some (.mk
          { url := "f1", method := "GET", trigger := some (.onError [429, 500]),
            fallbackJob := some (.mk
              { url := "f2", method := "GET", trigger := some (.onTimeout 5000),
                fallbackJob := some (.mk
                  { url := "f3", method := "GET", trigger := some .empty }) }) }) }

/-- C5 counterexample scenario: primary answers 500; the FRUGAL fallback's
own target answers 502, which is in the fallback's default trigger set, so
the fallback itself delegates before the primary escalates. -/
def lhC5 : String → LocalOutcome := fun u =>
  if u = "p" then .resp 500 "boom"
  else if u = "f" then .resp 502 "bad gateway"
  else .netError

/-- The collaborator's answer to any submission in the C5 scenario. -/
def queuedC5 : RDict := { status := some "queued", jobId := some "jid" }

/-- The C5 client: no webhook server, every submission queues. -/
def clientC5 : Client := ⟨false, "", fun _ => queuedC5⟩

/-- The C5 primary step with its single FRUGAL fallback triggered on 500. -/
def stepC5 : Step :=
  .mk { stepType := .frugal, url := some "p",
        fallbackSteps := [(.mk { stepType := .frugal, url := some "f" }, .onError [500])] }

/-- The payload the C5 fallback submits for itself. -/
def fbPayloadC5 : Payload := .mk { url := "f", method := "GET" }

/-- The payload the C5 primary submits when it escalates: the full
definition, fallback chain included. -/
def primPayloadC5 : Payload :=
  .mk { url := "p", method := "GET",
        fallbackJob := some (.mk { url := "f", method := "GET",
                                   trigger := some (.onError [500]) }) }

/-- C7 counterexample: a 200 "allowed" proxy answer whose
`forwarded_response` has no `status_code` key, so `submit_job` evaluates
`None < 200`. -/
def c7Response : HttpResponse :=
  { statusCode := 200,
    jsonBody := some { status := some "allowed", forwardedResponse := some {} } }

/-- C8 counterexample: the caller set the custom key `""` under the
default hash strategy. -/
def c8Step : Step := .mk { url := some "https://x", idempotentKey := some "" }

/-- C8 witness: a truthy custom key. -/
def c8WitStep : Step := .mk { url := some "u", idempotentKey := some "k" }

/-- The payload `c8WitStep` builds. -/
def c8WitPayload : Payload :=
  .mk { url := "u", method := "GET", idempotentKey := some (.custom "k") }

end EZ

/-! # Theorems -/

namespace EZ

variable {κ : Type} [DecidableEq κ]

/-- A key that is not among a dict's keys is not found. -/
theorem storeGet_eq_none_of_not_mem (s : Store κ) (id : κ)
    (h : id ∉ s.map Prod.fst) : storeGet s id = none := by
  induction s with
  | nil => rfl
  | cons p rest ih =>
    obtain ⟨k, v⟩ := p
    simp only [List.map_cons, List.mem_cons, not_or] at h
    have hk : ¬ k = id := fun hk => h.1 hk.symm
    simp only [storeGet, if_neg hk]
    exact ih h.2

/-- Popping a key from a dict with no duplicate keys removes it. -/
theorem storeGet_storePop (s : Store κ) (id : κ)
    (hnd : (s.map Prod.fst).Nodup) : storeGet (storePop s id) id = none := by
  induction s with
  | nil => rfl
  | cons p rest ih =>
    obtain ⟨k, v⟩ := p
    simp only [List.map_cons, List.nodup_cons] at hnd
    by_cases hk : k = id
    · simpa [storePop, hk] using storeGet_eq_none_of_not_mem rest id (hk ▸ hnd.1)
    · simp only [storePop, if_neg hk, storeGet, if_neg hk]
      exact ih hnd.2

/-- C1: `emit_event` releases the mutex between its `handlers.get` and its
`handlers.pop`, so the lock does not span lookup+removal: under the
schedule in which both threads pass their lookup before either pops (t0
look, t1 look, t0 invoke, t1 invoke, t0 pop, t1 pop), two concurrent
`emit_event "j" "success"` calls against a store registering one handler
for `"j"` both find the handler, invoke it twice, and both return True —
not exactly one invocation as claimed (the final state does satisfy
`get_handler "j" = none`). -/
theorem emit_event_race_double_invocation :
    raceFinal.invocations = [Inv.success false, Inv.success false] ∧
    raceFinal.t0 = Phase.done true ∧
    raceFinal.t1 = Phase.done true ∧
    getHandler raceFinal.store "j" = none := by
  refine ⟨rfl, rfl, rfl, rfl⟩

/-- C2: for a registered id, a single `emit_event` with status `"success"`
or `"failed"` returns True and unconditionally removes the registration —
whether or not the invoked handler raises, since the model's entry covers
both — so `get_handler` then yields None, a second `emit_event` returns
False and is a no-op, and `emit_event` for an unregistered id returns
False and changes no state. -/
theorem emit_event_at_most_once (s : Store String) (eventId : String)
    (h : HandlerEntry) (status : String)
    (hnd : (s.map Prod.fst).Nodup)
    (hreg : storeGet s eventId = some h)
    (_hst : status = "success" ∨ status = "failed") :
    (emitEvent s eventId (some status)).1 = true ∧
    getHandler (emitEvent s eventId (some status)).2.1 eventId = none ∧
    emitEvent (emitEvent s eventId (some status)).2.1 eventId (some status) =
      (false, (emitEvent s eventId (some status)).2.1, []) ∧
    ∀ (s2 : Store String) (id2 : String), storeGet s2 id2 = none →
      emitEvent s2 id2 (some status) = (false, s2, []) := by
  have hpop : storeGet (storePop s eventId) eventId = none := storeGet_storePop s eventId hnd
  refine ⟨?_, ?_, ?_, ?_⟩
  · simp [emitEvent, hreg]
  · simp [emitEvent, hreg, getHandler, hpop]
  · simp [emitEvent, hreg, hpop]
  · intro s2 id2 h2
    simp [emitEvent, h2]

/-- C2 witness: a store registering a handler for `"j"` whose `on_success`
callable raises, emitted with status `"success"`, returns True. -/
theorem emit_event_at_most_once_witness :
    (emitEvent ([("j", ⟨some ⟨true⟩, none, []⟩)] : Store String) "j" (some "success")).1 = true :=
  (emit_event_at_most_once [("j", ⟨some ⟨true⟩, none, []⟩)] "j" ⟨some ⟨true⟩, none, []⟩
    "success" (by decide) rfl (Or.inl rfl)).1

/-- C10: for a registered id, `emit_event` with a status that is neither
`"success"` nor `"failed"` (including a missing status) invokes neither
handler, still removes the registration, and returns True — the
continuation is consumed without ever running. -/
theorem emit_event_unrecognized_status_consumes (s : Store String) (eventId : String)
    (h : HandlerEntry) (status : Option String)
    (hnd : (s.map Prod.fst).Nodup)
    (hreg : storeGet s eventId = some h)
    (h1 : status ≠ some "success") (h2 : status ≠ some "failed") :
    emitEvent s eventId status = (true, storePop s eventId, []) ∧
    getHandler (storePop s eventId) eventId = none := by
  refine ⟨?_, ?_⟩
  · simp [emitEvent, hreg, emitInvocations, h1, h2]
  · simpa [getHandler] using storeGet_storePop s eventId hnd

/-- C10 witness: a store registering both handlers for `"j"`, emitted with
status `"timeout"`, returns True, runs nothing and drops the entry. -/
theorem emit_event_unrecognized_status_consumes_witness :
    emitEvent ([("j", ⟨some ⟨false⟩, some ⟨false⟩, []⟩)] : Store String) "j" (some "timeout") =
      (true, [], []) :=
  (emit_event_unrecognized_status_consumes [("j", ⟨some ⟨false⟩, some ⟨false⟩, []⟩)] "j"
    ⟨some ⟨false⟩, some ⟨false⟩, []⟩ (some "timeout") (by decide) rfl
    (by decide) (by decide)).1

/-- C6 (amended): on either backend, every JSON-object payload — whether
or not it carries `job_id` or `status` — is acknowledged 200 with the
`received` body after being stored under its (possibly None) job id: the
handler validates nothing.  At the framework boundary, a body that is not
parseable JSON is rejected with a 4xx before the handler runs (Flask 400,
FastAPI 422) with the state untouched; a parseable non-object body is
422-rejected by FastAPI, but on Flask it reaches the handler, whose first
field read raises `AttributeError` — the request fails 500 (still storing
nothing), not a 4xx rejection. -/
theorem receive_webhook_behaviour (b : Backend) (st : ServerState) (data : WebhookData) :
    (receiveWebhook b st (.jsonObject data)).1 = 200 ∧
    (receiveWebhook b st (.jsonObject data)).2.1 = some "received" ∧
    getResult (receiveWebhook b st (.jsonObject data)).2.2.results data.jobId = some data ∧
    receiveWebhook .flask st .notJson = (400, none, st) ∧
    receiveWebhook .fastapi st .notJson = (422, none, st) ∧
    receiveWebhook .fastapi st .jsonNonObject = (422, none, st) ∧
    receiveWebhook .flask st .jsonNonObject = (500, none, st) := by
  refine ⟨rfl, rfl, ?_, rfl, rfl, rfl, rfl⟩
  simp only [receiveWebhook]
  split <;> split <;> simp [getResult, setResult]

/-- C6 counterexample, on the Flask backend the claim's sources cite: the
JSON object with neither `job_id` nor `status` is not rejected with a
4xx — the handler stores it under the None key and acknowledges it with
200 — and a parseable non-object body (e.g. the JSON list `[1,2]`) makes
the handler raise, answering 500, which is not a 4xx either. -/
theorem receive_webhook_no_validation_counterexample :
    (receiveWebhook .flask {} (.jsonObject {})).1 = 200 ∧
    (receiveWebhook .flask {} (.jsonObject {})).2.2.results = [(none, {})] ∧
    (receiveWebhook .flask {} .jsonNonObject).1 = 500 :=
  ⟨rfl, rfl, rfl⟩

/-- A payload built from a step has the idempotent-key field the strategy
logic dictates, and its `fallback_job` key is exactly what
`_build_fallback_chain` produced for the step's chain. -/
theorem buildJobPayload_spec (f : StepF Step) (p : Payload)
    (hb : buildJobPayload (.mk f) = .ok p) :
    p.f.idempotentKey = idempotentKeyField f.idempotentKey f.idempotentStrategy ∧
    buildFallbackChain f.fallbackSteps = .ok p.f.fallbackJob := by
  obtain ⟨ty, url, meth, hdrs, body, meta, whs, quorum, regs, rpol, emode,
          retpol, rat, ikey, istrat, fbErr, lto, fbs, osucc, ofail, oftm⟩ := f
  simp only [buildJobPayload] at hb
  cases url with
  | none => simp at hb
  | some u =>
    dsimp only at hb
    by_cases hu : u = ""
    · simp [hu] at hb
    · rw [if_neg hu] at hb
      cases hfb : buildFallbackChain fbs with
      | error e => rw [hfb] at hb; simp [Bind.bind, Except.bind] at hb
      | ok fb =>
        rw [hfb] at hb
        cases hos : buildOptPayload osucc with
        | error e => rw [hos] at hb; simp [Bind.bind, Except.bind] at hb
        | ok osP =>
          rw [hos] at hb
          cases hof : buildOptPayload ofail with
          | error e => rw [hof] at hb; simp [Bind.bind, Except.bind] at hb
          | ok ofP =>
            rw [hof] at hb
            simp only [Bind.bind, Except.bind, Except.ok.injEq] at hb
            subst hb
            refine ⟨rfl, ?_⟩
            simp [Payload.f]

/-- C8 (amended): the built payload carries `idempotent_key` iff the
custom key is truthy (set and non-empty) or the strategy is unique; a
truthy custom key is used as-is, otherwise the unique strategy draws a
fresh client-side UUID, and otherwise (hash strategy) the field is absent
so the collaborator computes the deterministic key. -/
theorem idempotent_key_field_amended (s : Step) (p : Payload)
    (hb : buildJobPayload s = .ok p) :
    ((p.f.idempotentKey ≠ none) ↔
      (strTruthy s.f.idempotentKey = true ∨ s.f.idempotentStrategy = .unique)) ∧
    (strTruthy s.f.idempotentKey = true →
      p.f.idempotentKey = s.f.idempotentKey.map KeyVal.custom) ∧
    (strTruthy s.f.idempotentKey = false → s.f.idempotentStrategy = .unique →
      p.f.idempotentKey = some .freshUUID) ∧
    (strTruthy s.f.idempotentKey = false → s.f.idempotentStrategy = .hash →
      p.f.idempotentKey = none) := by
  obtain ⟨f⟩ := s
  have hkey := (buildJobPayload_spec f p hb).1
  simp only [Step.f] at *
  rw [hkey]
  unfold idempotentKeyField
  by_cases ht : strTruthy f.idempotentKey = true
  · cases hk : f.idempotentKey with
    | none => rw [hk] at ht; simp [strTruthy] at ht
    | some k =>
      rw [hk] at ht
      simp [ht, hk]
  · have ht' : strTruthy f.idempotentKey = false := by
      revert ht; cases strTruthy f.idempotentKey <;> simp
    cases hst : f.idempotentStrategy <;> simp [ht']

/-- C8 witness: for a step with truthy custom key `"k"` the built payload
carries exactly that key. -/
theorem idempotent_key_field_amended_witness :
    (c8WitPayload.f.idempotentKey ≠ none) ↔
      (strTruthy c8WitStep.f.idempotentKey = true ∨
        c8WitStep.f.idempotentStrategy = .unique) :=
  (idempotent_key_field_amended c8WitStep c8WitPayload rfl).1

/-- C8 counterexample: the caller-set custom key `""` is falsy, so under
the default hash strategy the payload carries no `idempotent_key` even
though a custom key was set — the claimed equivalence "field present iff
a custom key was set or the strategy is unique" fails. -/
theorem idempotent_key_claim_counterexample :
    c8Step.f.idempotentKey = some "" ∧
    c8Step.f.idempotentStrategy = IdempotentStrategy.hash ∧
    buildJobPayload c8Step = .ok (.mk { url := "https://x", method := "GET" }) ∧
    ¬(((Payload.mk { url := "https://x", method := "GET" }).f.idempotentKey ≠ none) ↔
      (c8Step.f.idempotentKey ≠ none ∨ c8Step.f.idempotentStrategy = .unique)) := by
  refine ⟨rfl, rfl, rfl, ?_⟩
  decide

/-- C7 counterexample: a 200 "allowed" proxy answer whose forwarded
response carries no `status_code` key makes `submit_job` compare `None`
with `200`, raising an untyped `TypeError` instead of a typed error or a
result. -/
theorem submit_job_untyped_error_counterexample :
    submitJob (fun _ => none) 0 c7Response = .error .typeError := rfl

/-- C7 (amended): when every field `submit_job` reads is present and
well-typed, the call either returns the parsed result payload or raises
the typed `EZThrottleError`; on a 429 with a non-empty integer
`Retry-After` header the typed error carries
`retry_at = now_ms + seconds * 1000`.  (Missing or ill-typed fields —
e.g. a forwarded response without an integer status code, a non-JSON
body, or a non-integer `Retry-After` — surface as untyped built-ins, as
the counterexample shows.) -/
theorem submit_job_typed_errors_amended :
    (∀ (parseJson : String → Option ResultPayload) (nowMs : Int) (r : HttpResponse)
        (pj : ProxyJson) (fw : ForwardedResp) (n : Int),
        r.jsonBody = some pj →
        pj.forwardedResponse = some fw →
        fw.statusCode = some n →
        (∀ hdr, r.retryAfterHeader = some hdr → hdr ≠ "" → parseInt hdr.toList ≠ none) →
        parseJson (fw.body.getD "\x7b\x7d") ≠ none →
        (∃ res, submitJob parseJson nowMs r = .ok res) ∨
        (∃ m ra, submitJob parseJson nowMs r = .error (.ezthrottleError m ra))) ∧
    (∀ (parseJson : String → Option ResultPayload) (nowMs : Int) (r : HttpResponse)
        (pj : ProxyJson) (hdr : String) (secs : Int),
        r.statusCode = 429 →
        r.jsonBody = some pj →
        r.retryAfterHeader = some hdr →
        hdr ≠ "" →
        parseInt hdr.toList = some secs →
        submitJob parseJson nowMs r =
          .error (.ezthrottleError ("Rate limited: " ++ (pj.error.getD "Unknown error"))
            (some (nowMs + secs * 1000)))) := by
  constructor
  · intro parseJson nowMs r pj fw n hjson hfw hsc hretry hparse
    simp only [submitJob, hjson, hfw, hsc, Option.getD_some]
    by_cases h429 : r.statusCode = 429
    · rw [if_pos h429]
      cases hhdr : r.retryAfterHeader with
      | none => exact Or.inr ⟨_, _, rfl⟩
      | some hdr =>
        dsimp only
        by_cases hne : hdr = ""
        · rw [if_neg (not_not_intro hne)]
          exact Or.inr ⟨_, _, rfl⟩
        · rw [if_pos hne]
          cases hp : parseInt hdr.toList with
          | none => exact absurd hp (hretry hdr hhdr hne)
          | some secs => exact Or.inr ⟨_, _, rfl⟩
    · rw [if_neg h429]
      by_cases h200 : r.statusCode = 200
      · rw [if_neg (not_not_intro h200)]
        by_cases hallowed : pj.status = some "allowed"
        · rw [if_neg (not_not_intro hallowed)]
          by_cases hrange : n < 200 ∨ n ≥ 300
          · rw [if_pos hrange]
            exact Or.inr ⟨_, _, rfl⟩
          · rw [if_neg hrange]
            cases hpj : parseJson (fw.body.getD "\x7b\x7d") with
            | none => exact absurd hpj hparse
            | some res => exact Or.inl ⟨res, rfl⟩
        · rw [if_pos hallowed]
          exact Or.inr ⟨_, _, rfl⟩
      · rw [if_pos h200]
        exact Or.inr ⟨_, _, rfl⟩
  · intro parseJson nowMs r pj hdr secs h429 hjson hhdr hne hp
    simp only [submitJob, hjson, hhdr]
    rw [if_pos h429, if_pos hne, hp]

/-- Attaching a trigger leaves the nested chain depth alone. -/
theorem chainDepth_withTrigger (p : Payload) (t : Trigger) :
    chainDepth (p.withTrigger t) = chainDepth p := by
  obtain ⟨f⟩ := p
  obtain ⟨u, m, hd, b, me, w, q, r, rp, em, rpo, ra, ik, fb, os, of, oft, tr⟩ := f
  cases fb <;> rfl

/-- Attaching a trigger leaves the chain levels alone. -/
theorem chainLevels_withTrigger (p : Payload) (t : Trigger) :
    chainLevels (p.withTrigger t) = chainLevels p := by
  obtain ⟨f⟩ := p
  obtain ⟨u, m, hd, b, me, w, q, r, rp, em, rpo, ra, ik, fb, os, of, oft, tr⟩ := f
  cases fb <;> rfl

/-- Attaching a trigger sets the trigger key. -/
theorem trigger_withTrigger (p : Payload) (t : Trigger) :
    (p.withTrigger t).f.trigger = some t := by
  obtain ⟨f⟩ := p
  rfl

/-- Overwriting the `fallback_job` key makes the chain one longer than the
attached chain. -/
theorem chainDepth_withFallbackJob (p q : Payload) :
    chainDepth (p.withFallbackJob q) = 1 + chainDepth q := by
  obtain ⟨f⟩ := p
  obtain ⟨u, m, hd, b, me, w, qq, r, rp, em, rpo, ra, ik, fb, os, of, oft, tr⟩ := f
  rfl

/-- Overwriting the `fallback_job` key replaces the levels below. -/
theorem chainLevels_withFallbackJob (p q : Payload) :
    chainLevels (p.withFallbackJob q) = q :: chainLevels q := by
  obtain ⟨f⟩ := p
  obtain ⟨u, m, hd, b, me, w, qq, r, rp, em, rpo, ra, ik, fb, os, of, oft, tr⟩ := f
  rfl

/-- Overwriting the `fallback_job` key leaves the trigger key alone. -/
theorem trigger_withFallbackJob (p q : Payload) :
    (p.withFallbackJob q).f.trigger = p.f.trigger := by
  obtain ⟨f⟩ := p
  rfl

/-- A payload without a `fallback_job` key has chain depth 0. -/
theorem chainDepth_of_none (p : Payload) (h : p.f.fallbackJob = none) :
    chainDepth p = 0 := by
  obtain ⟨f⟩ := p
  obtain ⟨u, m, hd, b, me, w, qq, r, rp, em, rpo, ra, ik, fb, os, of, oft, tr⟩ := f
  simp only [Payload.f] at h
  simp [chainDepth, h]

/-- A payload without a `fallback_job` key has no chain levels. -/
theorem chainLevels_of_none (p : Payload) (h : p.f.fallbackJob = none) :
    chainLevels p = [] := by
  obtain ⟨f⟩ := p
  obtain ⟨u, m, hd, b, me, w, qq, r, rp, em, rpo, ra, ik, fb, os, of, oft, tr⟩ := f
  simp only [Payload.f] at h
  simp [chainLevels, h]

/-- A payload with a `fallback_job` is one level deeper than it. -/
theorem chainDepth_of_some (p q : Payload) (h : p.f.fallbackJob = some q) :
    chainDepth p = 1 + chainDepth q := by
  obtain ⟨f⟩ := p
  obtain ⟨u, m, hd, b, me, w, qq, r, rp, em, rpo, ra, ik, fb, os, of, oft, tr⟩ := f
  simp only [Payload.f] at h
  simp [chainDepth, h]

/-- A payload with a `fallback_job` has it and its levels below. -/
theorem chainLevels_of_some (p q : Payload) (h : p.f.fallbackJob = some q) :
    chainLevels p = q :: chainLevels q := by
  obtain ⟨f⟩ := p
  obtain ⟨u, m, hd, b, me, w, qq, r, rp, em, rpo, ra, ik, fb, os, of, oft, tr⟩ := f
  simp only [Payload.f] at h
  simp [chainLevels, h]

/-- A non-empty fallback chain that builds successfully yields a payload,
never `none`. -/
theorem buildFallbackChain_cons_ok (x : Step × Trigger) (xs : List (Step × Trigger))
    (o : Option Payload) (h : buildFallbackChain (x :: xs) = .ok o) :
    ∃ c, o = some c := by
  obtain ⟨s, t⟩ := x
  simp only [buildFallbackChain] at h
  cases h1 : buildFallbackChain xs with
  | error e => rw [h1] at h; simp [Bind.bind, Except.bind] at h
  | ok tail =>
    rw [h1] at h
    cases h2 : buildJobPayload s with
    | error e => rw [h2] at h; simp [Bind.bind, Except.bind] at h
    | ok cur =>
      rw [h2] at h
      simp only [Bind.bind, Except.bind, Except.ok.injEq] at h
      exact ⟨_, h.symm⟩

/-- The serialized chain of a non-empty fallback list whose last fallback
carries no chain of its own: the nesting depth is the list length minus
one (counting below the chain head) and the trigger at each level is the
list's trigger, in order. -/
theorem buildFallbackChain_depth_triggers (l : List (Step × Trigger)) (q : Payload)
    (hc : buildFallbackChain l = .ok (some q))
    (hlast : ∀ g, l.getLast? = some g → g.1.f.fallbackSteps = []) :
    chainDepth q = l.length - 1 ∧
    (q :: chainLevels q).map (fun r => r.f.trigger) = l.map (fun g => some g.2) := by
  induction l generalizing q with
  | nil => simp [buildFallbackChain] at hc
  | cons head rest ih =>
    obtain ⟨s, t⟩ := head
    simp only [buildFallbackChain] at hc
    cases h1 : buildFallbackChain rest with
    | error e => rw [h1] at hc; simp [Bind.bind, Except.bind] at hc
    | ok tail =>
      rw [h1] at hc
      cases h2 : buildJobPayload s with
      | error e => rw [h2] at hc; simp [Bind.bind, Except.bind] at hc
      | ok cur =>
        rw [h2] at hc
        simp only [Bind.bind, Except.bind, Except.ok.injEq, Option.some.injEq] at hc
        cases rest with
        | nil =>
          have htail : tail = none := by
            have h0 : (Except.ok (none : Option Payload) : Except Unit (Option Payload)) =
                .ok tail := h1
            simpa using h0.symm
          subst htail
          simp only [] at hc
          subst hc
          have hs : s.f.fallbackSteps = [] := hlast (s, t) rfl
          obtain ⟨f⟩ := s
          have hcur := (buildJobPayload_spec f cur h2).2
          simp only [Step.f] at hs
          rw [hs] at hcur
          have hnone : cur.f.fallbackJob = none := by
            have h0 : (Except.ok (none : Option Payload) : Except Unit (Option Payload)) =
                .ok cur.f.fallbackJob := hcur
            simpa using h0.symm
          refine ⟨?_, ?_⟩
          · rw [chainDepth_withTrigger, chainDepth_of_none cur hnone]
            rfl
          · rw [List.map_cons, chainLevels_withTrigger, chainLevels_of_none cur hnone,
                trigger_withTrigger]
            rfl
        | cons r2 rest2 =>
          obtain ⟨c, hcq⟩ := buildFallbackChain_cons_ok r2 rest2 tail h1
          subst hcq
          simp only [] at hc
          subst hc
          have hlast' : ∀ g, (r2 :: rest2).getLast? = some g → g.1.f.fallbackSteps = [] := by
            intro g hg
            exact hlast g (by rw [List.getLast?_cons_cons]; exact hg)
          obtain ⟨ihd, iht⟩ := ih c h1 hlast'
          refine ⟨?_, ?_⟩
          · rw [chainDepth_withFallbackJob, ihd]
            simp only [List.length_cons]
            omega
          · rw [List.map_cons, chainLevels_withFallbackJob, trigger_withFallbackJob,
                trigger_withTrigger]
            simp only [List.map_cons] at iht ⊢
            rw [iht]

/-- C4 (amended): for a step whose last fallback carries no chain of its
own (non-last fallbacks' own chains are overwritten by serialization, the
last one's would extend the nesting), the built payload's `fallback_job`
nesting depth equals the chain length, the chain order is preserved with
the first fallback outermost, and each level carries its fallback's
trigger condition unchanged. -/
theorem fallback_chain_serialization_amended (s : Step) (p : Payload) (k : Nat)
    (hb : buildJobPayload s = .ok p)
    (hk : s.f.fallbackSteps.length = k)
    (hlast : ∀ g, s.f.fallbackSteps.getLast? = some g → g.1.f.fallbackSteps = []) :
    chainDepth p = k ∧
    (chainLevels p).map (fun r => r.f.trigger) =
      s.f.fallbackSteps.map (fun g => some g.2) := by
  obtain ⟨f⟩ := s
  have hchain := (buildJobPayload_spec f p hb).2
  simp only [Step.f] at hk hlast ⊢
  cases hfs : f.fallbackSteps with
  | nil =>
    rw [hfs] at hchain hk
    have hnone : p.f.fallbackJob = none := by
      have h0 : (Except.ok (none : Option Payload) : Except Unit (Option Payload)) =
          .ok p.f.fallbackJob := hchain
      simpa using h0.symm
    subst hk
    rw [chainDepth_of_none p hnone, chainLevels_of_none p hnone]
    simp
  | cons x xs =>
    rw [hfs] at hchain hk hlast
    obtain ⟨c, hcq⟩ := buildFallbackChain_cons_ok x xs p.f.fallbackJob hchain
    rw [hcq] at hchain
    obtain ⟨hd, ht⟩ := buildFallbackChain_depth_triggers (x :: xs) c hchain hlast
    refine ⟨?_, ?_⟩
    · rw [chainDepth_of_some p c hcq, hd]
      simp only [List.length_cons] at hk ⊢
      omega
    · rw [chainLevels_of_some p c hcq]
      exact ht

/-- C4 witness: the three-level chain of `c4WitStep` serializes to depth 3
with its three triggers preserved in order. -/
theorem fallback_chain_serialization_amended_witness :
    chainDepth c4WitPayload = 3 ∧
    (chainLevels c4WitPayload).map (fun r => r.f.trigger) =
      c4WitStep.f.fallbackSteps.map (fun g => some g.2) :=
  fallback_chain_serialization_amended c4WitStep c4WitPayload 3 rfl rfl
    (by
      intro g hg
      have h0 : some ((Step.mk { url := some "f3" } : Step), Trigger.empty) = some g := hg
      cases h0
      rfl)

/-- C4 counterexample: a step with one top-level fallback (`k = 1`) whose
fallback carries its own nested fallback builds a payload of nesting depth
2, not 1 — the claimed "depth equals chain length" fails for such steps. -/
theorem fallback_chain_depth_counterexample :
    c4CexStep.f.fallbackSteps.length = 1 ∧
    buildJobPayload c4CexStep = .ok c4CexPayload ∧
    chainDepth c4CexPayload = 2 :=
  ⟨rfl, rfl, rfl⟩

/-- A FRUGAL step without a (truthy) URL raises `ValueError` from
`_execute_local` before doing anything, submitting nothing. -/
theorem executeStep_no_url (localHttp : String → LocalOutcome) (client : Client)
    (fb : Step) (hty : fb.f.stepType = .frugal) (hurl : strTruthy fb.f.url = false) :
    executeStep localHttp client fb = (.error .valueError, []) := by
  obtain ⟨f⟩ := fb
  obtain ⟨ty, url, meth, hdrs, body, meta, whs, quorum, regs, rpol, emode,
          retpol, rat, ikey, istrat, fbErr, lto, fbs, osucc, ofail, oftm⟩ := f
  simp only [Step.f] at hty hurl
  subst hty
  simp [executeStep, frugalTry, frugalExcept, hurl]

/-- A chain element that is PERFORMANCE-typed, or FRUGAL without a URL, is
passed over by `_try_local_fallbacks` (skipped outright, or attempted,
raising, and swallowed) without contributing a submission. -/
theorem tryLocalFallbacks_cons_skip (localHttp : String → LocalOutcome) (client : Client)
    (fb : Step) (tg : Trigger) (l : List (Step × Trigger)) (ec : Option Int)
    (h : fb.f.stepType = .performance ∨
      (fb.f.stepType = .frugal ∧ strTruthy fb.f.url = false)) :
    tryLocalFallbacks localHttp client ((fb, tg) :: l) ec =
      tryLocalFallbacks localHttp client l ec := by
  rcases h with hperf | ⟨hfr, hurl⟩
  · conv_lhs => rw [tryLocalFallbacks.eq_def]
    dsimp only
    split
    · rw [if_neg (by simp [hperf])]
    · rfl
  · conv_lhs => rw [tryLocalFallbacks.eq_def]
    dsimp only
    split
    · rw [executeStep_no_url localHttp client fb hfr hurl]
      simp
    · rfl

/-- A prefix of chain elements that are all passed over changes nothing. -/
theorem tryLocalFallbacks_append_skip (localHttp : String → LocalOutcome) (client : Client)
    (pre l : List (Step × Trigger)) (ec : Option Int)
    (h : ∀ x ∈ pre, x.1.f.stepType = .performance ∨
      (x.1.f.stepType = .frugal ∧ strTruthy x.1.f.url = false)) :
    tryLocalFallbacks localHttp client (pre ++ l) ec =
      tryLocalFallbacks localHttp client l ec := by
  induction pre with
  | nil => rfl
  | cons x pre ih =>
    obtain ⟨fb, tg⟩ := x
    rw [List.cons_append,
      tryLocalFallbacks_cons_skip localHttp client fb tg (pre ++ l) ec (h (fb, tg) (by simp))]
    exact ih fun y hy => h y (by simp [hy])

/-- A chain whose every element is passed over yields no fallback result
and no submission. -/
theorem tryLocalFallbacks_all_skip (localHttp : String → LocalOutcome) (client : Client)
    (l : List (Step × Trigger)) (ec : Option Int)
    (h : ∀ x ∈ l, x.1.f.stepType = .performance ∨
      (x.1.f.stepType = .frugal ∧ strTruthy x.1.f.url = false)) :
    tryLocalFallbacks localHttp client l ec = (none, []) := by
  have h2 := tryLocalFallbacks_append_skip localHttp client l [] ec h
  rw [List.append_nil] at h2
  rw [h2, tryLocalFallbacks.eq_1]

/-- A FRUGAL step whose local call answers 2xx and that carries no
`on_success` continuation returns the local success dict and submits
nothing. -/
theorem executeStep_frugal_local_success (localHttp : String → LocalOutcome) (client : Client)
    (g : StepF Step) (u text : String) (c : Int)
    (hty : g.stepType = .frugal) (hurl : g.url = some u) (hne : u ≠ "")
    (hresp : localHttp u = .resp c text)
    (h2xx : 200 ≤ c ∧ c < 300) (hos : g.onSuccessStep = none) :
    executeStep localHttp client (.mk g) = (.ok (successDict c text), []) := by
  obtain ⟨ty, url, meth, hdrs, body, meta, whs, quorum, regs, rpol, emode,
          retpol, rat, ikey, istrat, fbErr, lto, fbs, osucc, ofail, oftm⟩ := g
  dsimp only at hty hurl hos
  subst hty hurl hos
  obtain ⟨hc1, hc2⟩ := h2xx
  simp [executeStep, frugalTry, frugalOnSuccess, frugalExcept, strTruthy, hne, hresp, hc1, hc2]

/-- The chain stops at a triggered FRUGAL fallback whose execution reports
success, returning its result and its submissions, whatever follows it. -/
theorem tryLocalFallbacks_cons_success (localHttp : String → LocalOutcome) (client : Client)
    (fb : Step) (codes : List Int) (c : Int) (rest : List (Step × Trigger))
    (rd : RDict) (subs : List Payload)
    (htr : c ≠ 0 ∧ c ∈ codes)
    (hty : fb.f.stepType = .frugal)
    (hexec : executeStep localHttp client fb = (.ok rd, subs))
    (hsucc : rd.status = some "success") :
    tryLocalFallbacks localHttp client ((fb, .onError codes) :: rest) (some c) =
      (some rd, subs) := by
  conv_lhs => rw [tryLocalFallbacks.eq_def]
  dsimp only
  rw [if_pos (by simp [htr.1, htr.2]), if_pos hty, hexec]
  simp [hsucc]

/-- C3: a FRUGAL step whose primary call answers a trigger-set error and
whose chain is PERFORMANCE fallbacks (skipped), then a FRUGAL fallback
triggered on that code that succeeds locally, then anything at all
(never reached): `execute` returns that fallback's success dict — a
success result with `executed_locally = true` — and nothing whatsoever is
submitted to the collaborator. -/
theorem frugal_local_first_success (localHttp : String → LocalOutcome) (client : Client)
    (f g : StepF Step) (pre rest : List (Step × Trigger)) (codes : List Int)
    (u fu ptext ftext : String) (c fc : Int)
    (hty : f.stepType = .frugal) (hurl : f.url = some u) (hne : u ≠ "")
    (hresp : localHttp u = .resp c ptext)
    (hnot2xx : ¬(200 ≤ c ∧ c < 300)) (hin : c ∈ f.fallbackOnError)
    (hchain : f.fallbackSteps = pre ++ (Step.mk g, Trigger.onError codes) :: rest)
    (hpre : ∀ x ∈ pre, x.1.f.stepType = .performance)
    (htr : c ≠ 0 ∧ c ∈ codes)
    (hgty : g.stepType = .frugal) (hgurl : g.url = some fu) (hgne : fu ≠ "")
    (hgresp : localHttp fu = .resp fc ftext) (hg2xx : 200 ≤ fc ∧ fc < 300)
    (hgos : g.onSuccessStep = none) :
    executeStep localHttp client (.mk f) = (.ok (successDict fc ftext), []) ∧
    (successDict fc ftext).status = some "success" ∧
    (successDict fc ftext).executedLocally = some true := by
  refine ⟨?_, rfl, rfl⟩
  have hfbres :
      tryLocalFallbacks localHttp client f.fallbackSteps (some c) =
        (some (successDict fc ftext), []) := by
    rw [hchain,
      tryLocalFallbacks_append_skip localHttp client pre _ (some c)
        (fun x hx => Or.inl (hpre x hx))]
    exact tryLocalFallbacks_cons_success localHttp client (.mk g) codes c rest
      (successDict fc ftext) [] htr hgty
      (executeStep_frugal_local_success localHttp client g fu ftext fc
        hgty hgurl hgne hgresp hg2xx hgos) rfl
  obtain ⟨ty, url, meth, hdrs, body, meta, whs, quorum, regs, rpol, emode,
          retpol, rat, ikey, istrat, fbErr, lto, fbs, osucc, ofail, oftm⟩ := f
  dsimp only at hty hurl hin hfbres
  subst hty hurl
  simp [executeStep, frugalTry, frugalEscalate, frugalExcept, strTruthy, hne, hresp,
        hnot2xx, hin, hfbres]

/-- C3 witness: primary 500 with a skipped PERFORMANCE fallback ahead, the
FRUGAL fallback answering 200, and a URL-less tail step behind it: the
result is the fallback's local success and no submission happens. -/
theorem frugal_local_first_success_witness :
    executeStep lhC3 clientC3 (.mk fC3) = (.ok (successDict 200 "ok"), []) ∧
    (successDict 200 "ok").status = some "success" ∧
    (successDict 200 "ok").executedLocally = some true :=
  frugal_local_first_success lhC3 clientC3 fC3 (fbC3.f) preC3 restC3 [500]
    "https://primary" "https://fb" "oops" "ok" 500 200
    rfl rfl (by decide) rfl (by decide) (by decide) rfl
    (by
      intro x hx
      have h0 : x = ((Step.mk { stepType := .performance, url := some "https://perf" } : Step),
          Trigger.empty) := by simpa [preC3] using hx
      rw [h0]
      rfl)
    (by decide) rfl rfl (by decide) rfl (by decide) rfl

/-- C5 (amended): a FRUGAL step whose primary answers an error status not
in the trigger set returns the terminal failure dict carrying that status,
attempts no fallback and submits nothing; a trigger-set status whose
fallback attempts all fail without delegating of their own — each chain
element PERFORMANCE-typed (skipped) or FRUGAL with no URL (its attempt
raises and is swallowed) — leads to exactly one submission carrying the
full original definition, whose answer is returned rather than a failure.
(A FRUGAL fallback that fails with a trigger-set status of its own first
performs its own delegation, adding submissions — see the
counterexample.) -/
theorem frugal_failure_semantics_amended :
    (∀ (localHttp : String → LocalOutcome) (client : Client) (f : StepF Step)
        (u ptext : String) (c : Int),
        f.stepType = .frugal → f.url = some u → u ≠ "" →
        localHttp u = .resp c ptext →
        ¬(200 ≤ c ∧ c < 300) → c ∉ f.fallbackOnError →
        executeStep localHttp client (.mk f) = (.ok (failedDict c), [])) ∧
    (∀ (localHttp : String → LocalOutcome) (client : Client) (f : StepF Step)
        (u ptext : String) (c : Int) (p : Payload),
        f.stepType = .frugal → f.url = some u → u ≠ "" →
        localHttp u = .resp c ptext →
        ¬(200 ≤ c ∧ c < 300) → c ∈ f.fallbackOnError →
        (∀ x ∈ f.fallbackSteps, x.1.f.stepType = .performance ∨
          (x.1.f.stepType = .frugal ∧ strTruthy x.1.f.url = false)) →
        client.hasWebhookServer = false →
        buildJobPayload (.mk f) = .ok p →
        executeStep localHttp client (.mk f) = (.ok (client.submit p), [p])) := by
  constructor
  · intro localHttp client f u ptext c hty hurl hne hresp hnot2xx hnotin
    obtain ⟨ty, url, meth, hdrs, body, meta, whs, quorum, regs, rpol, emode,
            retpol, rat, ikey, istrat, fbErr, lto, fbs, osucc, ofail, oftm⟩ := f
    dsimp only at hty hurl hnotin
    subst hty hurl
    simp [executeStep, frugalTry, frugalExcept, strTruthy, hne, hresp, hnot2xx, hnotin]
  · intro localHttp client f u ptext c p hty hurl hne hresp hnot2xx hin hskip hws hbp
    have hfb := tryLocalFallbacks_all_skip localHttp client f.fallbackSteps (some c) hskip
    obtain ⟨ty, url, meth, hdrs, body, meta, whs, quorum, regs, rpol, emode,
            retpol, rat, ikey, istrat, fbErr, lto, fbs, osucc, ofail, oftm⟩ := f
    dsimp only at hty hurl hin hfb hbp
    subst hty hurl
    simp [executeStep, frugalTry, frugalEscalate, frugalExcept, forwardToEZThrottle,
          strTruthy, hne, hresp, hnot2xx, hin, hfb, hbp, hws]

/-- C5 counterexample: primary 500 (trigger set), one FRUGAL fallback
triggered on 500 whose own call answers 502 — in the fallback's own
default trigger set — so the fallback delegates itself before the primary
escalates: the collaborator receives two submissions (the fallback's own
payload, then the full original definition), not exactly one. -/
theorem frugal_escalation_counterexample :
    executeStep lhC5 clientC5 stepC5 = (.ok queuedC5, [fbPayloadC5, primPayloadC5]) ∧
    (executeStep lhC5 clientC5 stepC5).2.length = 2 := by
  have h : executeStep lhC5 clientC5 stepC5 = (.ok queuedC5, [fbPayloadC5, primPayloadC5]) := by
    simp [lhC5, clientC5, stepC5, queuedC5, fbPayloadC5, primPayloadC5,
          executeStep, frugalTry, frugalEscalate, frugalExcept, frugalOnSuccess,
          tryLocalFallbacks, forwardToEZThrottle, buildJobPayload, buildOptPayload,
          buildFallbackChain, strTruthy, successDict, failedDict, Step.f, Payload.f,
          idempotentKeyField, Payload.withTrigger, Payload.withFallbackJob, optListTruthy,
          Bind.bind, Except.bind, Step.applyForward]
  exact ⟨h, by rw [h]; rfl⟩

/-- A comma-free string is one whole split part. -/
theorem splitComma_no_comma (a : PyStr) (h : ',' ∉ a) : splitComma a = [a] := by
  induction a with
  | nil => rfl
  | cons c rest ih =>
    simp only [List.mem_cons, not_or] at h
    have hc : ¬ c = ',' := fun hc => h.1 hc.symm
    simp [splitComma, hc, ih h.2]

/-- Splitting at the first comma after a comma-free prefix. -/
theorem splitComma_append (a b : PyStr) (h : ',' ∉ a) :
    splitComma (a ++ ',' :: b) = a :: splitComma b := by
  induction a with
  | nil => simp [splitComma]
  | cons c rest ih =>
    simp only [List.mem_cons, not_or] at h
    have hc : ¬ c = ',' := fun hc => h.1 hc.symm
    simp [splitComma, hc, ih h.2]

/-- `split('=', 1)` on a part whose key holds no `=`. -/
theorem splitFirstEq_append (k v : PyStr) (hk : '=' ∉ k) :
    splitFirstEq (k ++ '=' :: v) = some (k, v) := by
  induction k with
  | nil => simp [splitFirstEq]
  | cons c rest ih =>
    simp only [List.mem_cons, not_or] at hk
    have hc : ¬ c = '=' := fun hc => hk.1 hc.symm
    simp [splitFirstEq, hc, ih hk.2]

/-- Parsing the well-formed header yields exactly the `t` and `v1`
entries. -/
theorem partsOf_header (ts sig : PyStr) (hts : ',' ∉ ts) (hsig : ',' ∉ sig) :
    partsOf (sigHeaderOf ts sig) = [(['t'], ts), (['v', '1'], sig)] := by
  have h1 : ',' ∉ ('t' :: '=' :: ts) := by
    simp only [List.mem_cons, not_or]
    exact ⟨by decide, by decide, hts⟩
  have h2 : ',' ∉ ('v' :: '1' :: '=' :: sig) := by
    simp only [List.mem_cons, not_or]
    exact ⟨by decide, by decide, by decide, hsig⟩
  have hsplit : splitComma (sigHeaderOf ts sig) =
      ('t' :: '=' :: ts) :: [('v' :: '1' :: '=' :: sig)] := by
    have := splitComma_append ('t' :: '=' :: ts) ('v' :: '1' :: '=' :: sig) h1
    rw [show ('t' :: '=' :: ts) ++ ',' :: 'v' :: '1' :: '=' :: sig = sigHeaderOf ts sig
        from rfl] at this
    rw [this, splitComma_no_comma _ h2]
  unfold partsOf
  rw [hsplit]
  simp only [List.filterMap_cons,
    show splitFirstEq ('t' :: '=' :: ts) = some (['t'], ts) from
      splitFirstEq_append ['t'] ts (by decide),
    show splitFirstEq ('v' :: '1' :: '=' :: sig) = some (['v', '1'], sig) from
      splitFirstEq_append ['v', '1'] sig (by decide)]
  rfl

/-- The `parts.get` reads on the parsed header. -/
theorem partsGet_header (ts sig : PyStr) :
    partsGet [(['t'], ts), (['v', '1'], sig)] ['t'] ['0'] = ts ∧
    partsGet [(['t'], ts), (['v', '1'], sig)] ['v', '1'] [] = sig := by
  constructor <;>
    simp [partsGet, List.find?,
      show ((['v', '1'] : PyStr) == ['t']) = false from by decide,
      show ((['t'] : PyStr) == ['v', '1']) = false from by decide]

/-- `verify_webhook_signature` on a well-formed header reduces to the
timestamp check followed by the HMAC comparison. -/
theorem verify_on_header (hmac : PyStr → PyStr → PyStr) (now : Int)
    (payload ts sig secret : PyStr) (tol : Int)
    (hts : ',' ∉ ts) (hsig : ',' ∉ sig) (hne : sig ≠ []) :
    verifyWebhookSignature hmac now payload (sigHeaderOf ts sig) secret tol =
      (match parseInt ts with
       | none => (false, "verification_error: invalid int literal")
       | some sigTime =>
         if |now - sigTime| > tol then
           (false, "timestamp_expired (diff=" ++ toString |now - sigTime| ++
             "s, tolerance=" ++ toString tol ++ "s)")
         else if sig = hmac secret (ts ++ '.' :: payload) then (true, "valid")
         else (false, "signature_mismatch")) := by
  unfold verifyWebhookSignature
  rw [if_neg (by simp [sigHeaderOf])]
  rw [partsOf_header ts sig hts hsig]
  dsimp only
  rw [(partsGet_header ts sig).1, (partsGet_header ts sig).2]
  rw [if_neg hne]

/-- C9: the three verification properties.  (1) a header whose timestamp
`t` has `|now − t| > tolerance` — in particular any `t ≤ now − tolerance
− 1` — is rejected as expired with a typed reason, not an exception;
(2) a header whose HMAC was computed under a different secret (yielding a
digest different from the expected one) is rejected as `signature_mismatch`;
(3) `try_verify_with_secrets` answers `valid_secondary` when only the
secondary secret verifies, and `valid_primary` when the primary does. -/
theorem signature_verification_properties :
    (∀ (hmac : PyStr → PyStr → PyStr) (now : Int) (payload ts sig secret : PyStr)
        (tol t : Int),
      ',' ∉ ts → ',' ∉ sig → sig ≠ [] →
      parseInt ts = some t → |now - t| > tol →
      verifyWebhookSignature hmac now payload (sigHeaderOf ts sig) secret tol =
        (false, "timestamp_expired (diff=" ++ toString |now - t| ++
          "s, tolerance=" ++ toString tol ++ "s)")) ∧
    (∀ (hmac : PyStr → PyStr → PyStr) (now : Int) (payload ts secret secret2 : PyStr)
        (tol t : Int),
      ',' ∉ ts → ',' ∉ hmac secret2 (ts ++ '.' :: payload) →
      hmac secret2 (ts ++ '.' :: payload) ≠ [] →
      parseInt ts = some t → ¬(|now - t| > tol) →
      hmac secret2 (ts ++ '.' :: payload) ≠ hmac secret (ts ++ '.' :: payload) →
      verifyWebhookSignature hmac now payload
          (sigHeaderOf ts (hmac secret2 (ts ++ '.' :: payload))) secret tol =
        (false, "signature_mismatch")) ∧
    (∀ (hmac : PyStr → PyStr → PyStr) (now : Int) (payload header primary secondary : PyStr)
        (tol : Int),
      (verifyWebhookSignature hmac now payload header primary tol).1 = false →
      secondary ≠ [] →
      (verifyWebhookSignature hmac now payload header secondary tol).1 = true →
      tryVerifyWithSecrets hmac now payload header primary (some secondary) tol =
        (true, "valid_secondary")) ∧
    (∀ (hmac : PyStr → PyStr → PyStr) (now : Int) (payload header primary : PyStr)
        (secondary : Option PyStr) (tol : Int),
      (verifyWebhookSignature hmac now payload header primary tol).1 = true →
      tryVerifyWithSecrets hmac now payload header primary secondary tol =
        (true, "valid_primary")) := by
  refine ⟨?_, ?_, ?_, ?_⟩
  · intro hmac now payload ts sig secret tol t hts hsig hne hparse hexp
    rw [verify_on_header hmac now payload ts sig secret tol hts hsig hne, hparse]
    simp [hexp]
  · intro hmac now payload ts secret secret2 tol t hts hsig hne hparse hfresh hdiff
    rw [verify_on_header hmac now payload ts _ secret tol hts hsig hne, hparse]
    simp [hfresh, hdiff]
  · intro hmac now payload header primary secondary tol hp hsne hs
    unfold tryVerifyWithSecrets
    dsimp only
    rw [hp]
    simp only [Bool.false_eq_true, if_false]
    rw [if_pos hsne, hs]
    rfl
  · intro hmac now payload header primary secondary tol hp
    unfold tryVerifyWithSecrets
    dsimp only
    rw [hp]
    rfl

end EZ
